import Mathlib

/-
Shallow embedding of the K-1 tax-communications batch processor
(`k1_processor.py`, class `K1BatchProcessor`).

Modelling conventions:
- Python strings are Lean `String`s; character-level operations
  (`str.lower`, `str.strip`, `in`, `str.translate`, `re.search` on the
  fixed patterns of the source) are implemented over `List Char`.
  `str.lower` is modelled per character by `Char.toLower`; all inputs in
  this development are ASCII, where the two agree.
- A PDF page is its extracted text split into lines (`List String`); a
  document is a list of pages.  The markers searched by the code contain
  no newline, so membership in the page text equals membership in one of
  its lines.
- Nullable record fields are `Option`; a missing pandas value is `none`.
- Python exceptions that the source does not catch are modelled by
  `Except String`, carrying the exception class name: `lines[i]` out of
  range is `.error "IndexError"`, and reading a local variable that was
  never assigned (the `print` after each document reads `issuing_entity`
  and `receiving_entity`) is `.error "UnboundLocalError"`.  The two
  booleans threaded through `extractPassAux` record whether those locals
  have been bound earlier in the same `extract_entities` call.
-/

/-! ## Python-style character and string primitives -/

/-- Whitespace as matched by Python `str.strip` and regex class in the
source's ASCII data: space, tab, LF, VT, FF, CR. -/
def isSpaceChar (c : Char) : Bool :=
  c == ' ' || c == Char.ofNat 9 || c == Char.ofNat 10 ||
    c == Char.ofNat 11 || c == Char.ofNat 12 || c == Char.ofNat 13

/-- Word character for the regex word-boundary test: alphanumeric or underscore. -/
def wordChar (c : Char) : Bool :=
  c.isAlphanum || c == Char.ofNat 95

/-- Python `str.lower`, per character. -/
def pyLowerL (cs : List Char) : List Char := cs.map Char.toLower

/-- Python `str.lower` on strings. -/
def pyLower (s : String) : String := ⟨pyLowerL s.data⟩

/-- Python `str.strip`: drop leading and trailing whitespace. -/
def pyStripL (cs : List Char) : List Char :=
  ((cs.dropWhile isSpaceChar).reverse.dropWhile isSpaceChar).reverse

/-- Python `str.strip` on strings. -/
def pyStrip (s : String) : String := ⟨pyStripL s.data⟩

/-- Auxiliary for the Python `in` substring test. -/
def containsSubAux (n : List Char) : List Char → Bool
  | [] => List.isPrefixOf n []
  | c :: cs => List.isPrefixOf n (c :: cs) || containsSubAux n cs

/-- Python `needle in hay` on strings. -/
def containsSub (needle hay : String) : Bool :=
  containsSubAux needle.data hay.data

/-- Python `str.endswith`. -/
def pyEndsWith (suf s : String) : Bool :=
  List.isSuffixOf suf.data s.data

/-! ## The fixed regular expressions of `extract_entities`

Every pattern in `receiving_entity_regexp` has the shape
`\b tok (\s+ tok)* \b` where each token is a literal word of word
characters, so `re.search` is: at some position preceded by start or a
non-word character, the tokens appear separated by runs of whitespace,
followed by end or a non-word character. -/

/-- Match a literal token at the head, returning the remainder. -/
def matchLit : List Char → List Char → Option (List Char)
  | [], cs => some cs
  | _ :: _, [] => none
  | p :: ps, c :: cs => if c == p then matchLit ps cs else none

/-- Match a `\s+`-separated token sequence at the head. -/
def matchSeq : List (List Char) → List Char → Option (List Char)
  | [], cs => some cs
  | t :: ts, cs =>
    match matchLit t cs with
    | none => none
    | some rest =>
      match ts with
      | [] => some rest
      | _ :: _ =>
        match rest with
        | [] => none
        | c :: _ =>
          if isSpaceChar c then matchSeq ts (rest.dropWhile isSpaceChar) else none

/-- Closing word boundary: end of string or a non-word character. -/
def boundaryOkAfter : List Char → Bool
  | [] => true
  | c :: _ => !wordChar c

/-- Does the token sequence match at the current position (with closing boundary)? -/
def matchHere (toks : List (List Char)) (cs : List Char) : Bool :=
  match matchSeq toks cs with
  | none => false
  | some rest => boundaryOkAfter rest

/-- Scan for a match; the boolean says whether the current position is at a
word boundary (start of string or previous character not a word character). -/
def searchWordsAux (toks : List (List Char)) : Bool → List Char → Bool
  | _, [] => false
  | atBoundary, c :: cs =>
    (atBoundary && matchHere toks (c :: cs)) || searchWordsAux toks (!wordChar c) cs

/-- `re.search` for a `\b tok (\s+ tok)* \b` pattern: does it match anywhere? -/
def reSearchWords (toks : List (List Char)) (cs : List Char) : Bool :=
  searchWordsAux toks true cs

/-- The ordered rule list of `extract_entities` (source lines 153-164),
as (token sequence, move-one-line-up instruction) pairs; first match wins. -/
def receiving_entity_regexp : List (List String × Bool) :=
  [ (["1021", "38th", "street", "investment"], false),
    (["1021", "38th", "street"], true),
    (["38th", "street"], false),
    (["benedikt", "road"], false),
    (["st"], true),
    (["street"], true),
    (["road"], true),
    (["lane"], true),
    (["ave"], true),
    (["avenue"], true) ]

/-- `re.search(pattern, receiving_entity.lower())` for one rule. -/
def ruleHit (toks : List String) (receiving_entity : String) : Bool :=
  reSearchWords (toks.map String.data) (pyLower receiving_entity).data

/-- The rule loop of source lines 184-189: test the rules in order against
the lower-cased naive extraction; the first hit decides, default `false`. -/
def moveOneLineUp (receiving_entity : String) : Bool :=
  match receiving_entity_regexp.find? (fun rule => ruleHit rule.1 receiving_entity) with
  | some rule => rule.2
  | none => false

/-! ## The PDF-decoding artifact substitution -/

/-- Does the text start with the artifact \" (cid:\" ddd \")X\" (source line 179)? -/
def cidAt : List Char → Bool
  | a :: b :: c1 :: c2 :: c3 :: c4 :: d1 :: d2 :: d3 :: e :: f :: _ =>
    a == ' ' && b == '(' && c1 == 'c' && c2 == 'i' && c3 == 'd' && c4 == ':' &&
      d1.isDigit && d2.isDigit && d3.isDigit && e == ')' && f == 'X'
  | _ => false

/-- Fuel-based recursion for the substitution: every step consumes at least
one character, so fuel equal to the length never runs out. -/
def cidSubAux : Nat → List Char → List Char
  | 0, cs => cs
  | _ + 1, [] => []
  | fuel + 1, c :: cs =>
    if cidAt (c :: cs) then cidSubAux fuel (cs.drop 10)
    else c :: cidSubAux fuel cs

/-- `re.sub(r" \(cid:\d{3}\)X", "", s)`: remove every occurrence, left to right. -/
def cidSub (cs : List Char) : List Char := cidSubAux cs.length cs

/-- The artifact substitution on strings. -/
def cidSubStr (s : String) : String := ⟨cidSub s.data⟩

/-! ## The document record (`k1_array` entries) -/

/-- One entry of `k1_array`: a discovered K-1 document. -/
structure K1Info where
  path : String
  investment_name : String
  issuing_entity : Option String
  receiving_entity : Option String
  deriving DecidableEq

/-- The pair of entity fields mutated by `extract_entities`. -/
abbrev Ent := Option String × Option String

/-- The form marker searched on each page (source line 172). -/
def k1Marker : String := "Schedule K-1 (Form 1065)"

/-- Section anchor for the issuing entity (source line 175). -/
def hdrPartI : String := "Part I Information About the Partnership"

/-- Section anchor for the receiving entity (source line 181). -/
def hdrPartII : String := "Part II Information About the Partner"

/-! ## Per-document extraction (`extract_entities`, lines 166-197) -/

/-- Source lines 182-194: naive value is `lines[idx].strip()`; the first
matching rule may move the selection one line above. `lines[i]` out of
range raises IndexError. -/
def selectReceiving (lines : List String) (idx : Nat) : Except String String :=
  match lines.get? idx with
  | none => .error "IndexError"
  | some raw =>
    if moveOneLineUp (pyStrip raw) then
      match lines.get? (idx - 1) with
      | none => .error "IndexError"
      | some above => .ok (pyStrip above)
    else .ok (pyStrip raw)

/-- Source lines 176-180: issuing entity is three lines below the anchor,
with the long-line-spill correction and the artifact substitution. -/
def processIssuing (lines : List String) (ln : Nat) (acc : Ent) : Except String Ent :=
  match lines.get? (ln + 3) with
  | none => .error "IndexError"
  | some raw =>
    if pyLower (pyStrip raw) == "investors llc" then
      match lines.get? (ln + 2) with
      | none => .error "IndexError"
      | some prev => .ok (some (cidSubStr (pyStrip prev ++ " " ++ pyStrip raw)), acc.2)
    else .ok (some (cidSubStr (pyStrip raw)), acc.2)

/-- Source lines 181-194: receiving entity via `selectReceiving`. -/
def processReceiving (lines : List String) (ln : Nat) (acc : Ent) : Except String Ent :=
  match selectReceiving lines (ln + 3) with
  | .error e => .error e
  | .ok re => .ok (acc.1, some re)

/-- One iteration of the line loop (source lines 174-194): both anchor
tests run on every line; a later anchor occurrence overwrites an earlier one. -/
def processLine (lines : List String) (ln : Nat) (line : String) (acc : Ent) : Except String Ent :=
  match (if containsSub hdrPartI line then processIssuing lines ln acc else .ok acc) with
  | .error e => .error e
  | .ok acc1 => if containsSub hdrPartII line then processReceiving lines ln acc1 else .ok acc1

/-- The line loop over the matched page. -/
def processLinesAux (lines : List String) : Nat → List String → Ent → Except String Ent
  | _, [], acc => .ok acc
  | ln, l :: ls, acc =>
    match processLine lines ln l acc with
    | .error e => .error e
    | .ok acc1 => processLinesAux lines (ln + 1) ls acc1

/-- Does a page contain the form marker (source line 172)? -/
def pageHasMarker (p : List String) : Bool :=
  p.any (fun l => containsSub k1Marker l)

/-- Source lines 169-195: iterate pages in order; the first page containing
the marker is processed and the page loop breaks; with no marker page
the entity fields are left as they are. -/
def extractEnt (pages : List (List String)) (acc : Ent) : Except String Ent :=
  match pages.find? pageHasMarker with
  | none => .ok acc
  | some p => processLinesAux p 0 p acc

/-- The document loop of `extract_entities`: documents with both entity
fields null are processed (the others skipped, source line 148); after each
processed document the source prints `issuing_entity`/`receiving_entity`
(line 197), which raises UnboundLocalError unless both locals were bound
earlier in the call; the two booleans track that binding state. -/
def extractPassAux (content : String → List (List String)) :
    List K1Info → Bool → Bool → Except String (List K1Info)
  | [], _, _ => .ok []
  | k :: ks, boundI, boundR =>
    if k.issuing_entity = none ∧ k.receiving_entity = none then
      match extractEnt (content k.path) (k.issuing_entity, k.receiving_entity) with
      | .error e => .error e
      | .ok (i, r) =>
        if (boundI || i.isSome) && (boundR || r.isSome) then
          match extractPassAux content ks (boundI || i.isSome) (boundR || r.isSome) with
          | .error e => .error e
          | .ok rest => .ok ({ k with issuing_entity := i, receiving_entity := r } :: rest)
        else .error "UnboundLocalError"
    else
      match extractPassAux content ks boundI boundR with
      | .error e => .error e
      | .ok rest => .ok (k :: rest)

/-- One call of `extract_entities`: the locals of the per-document print
start unbound. `content` maps a document path to its pages. -/
def extract_entities (content : String → List (List String)) (arr : List K1Info) :
    Except String (List K1Info) :=
  extractPassAux content arr false false

/-! ## Discovery (`_gather_files`, lines 121-144) -/

/-- The record appended for a newly discovered file. -/
def k1EntryOf (asset_folder file : String) : K1Info :=
  { path := asset_folder ++ "/" ++ file
    investment_name := asset_folder
    issuing_entity := none
    receiving_entity := none }

/-- The discovery filter: `.pdf` suffix (case-insensitive), no `managers`
substring (case-insensitive), and the path not already in the array. -/
def gatherCond (arr : List K1Info) (asset_folder file : String) : Bool :=
  pyEndsWith ".pdf" (pyLower file) && !(containsSub "managers" (pyLower file)) &&
    !(arr.any (fun k1 => k1.path == asset_folder ++ "/" ++ file))

/-- The `new_k1_files` list built by the scan; `listing` is the directory
tree as (asset folder, contained file names) pairs. -/
def gatherNew (arr : List K1Info) (listing : List (String × List String)) : List K1Info :=
  listing.flatMap (fun af => (af.2.filter (gatherCond arr af.1)).map (k1EntryOf af.1))

/-- `_gather_files`: extend the array with the newly discovered records. -/
def gather_files (arr : List K1Info) (listing : List (String × List String)) : List K1Info :=
  arr ++ gatherNew arr listing

/-! ## Key normalization (`_create_matching_keys`, lines 208-221) -/

/-- The stop characters of the translation table: space, period, comma,
curly apostrophe (U+2019), straight apostrophe. -/
def isStopChar (c : Char) : Bool :=
  c == ' ' || c == '.' || c == ',' || c == Char.ofNat 8217 || c == Char.ofNat 39

/-- `str.translate` with the deletion table of the source. -/
def stop_characters_translate : List Char → List Char
  | [] => []
  | c :: cs =>
    if isStopChar c then stop_characters_translate cs
    else c :: stop_characters_translate cs

/-- Python `str(x)` on a nullable string: `None` renders as \"None\". -/
def pyStrOfOpt : Option String → String
  | none => "None"
  | some s => s

/-- `_create_matching_keys` for one record: the `#`-joined f-string,
lower-cased, then translated. -/
def create_matching_key (k : K1Info) : String :=
  ⟨stop_characters_translate (pyLowerL
    (k.investment_name ++ "#" ++ pyStrOfOpt k.issuing_entity ++ "#" ++
      pyStrOfOpt k.receiving_entity).data)⟩

/-- The spec's wording of the normalizer: concatenate with `#`, case-fold,
then remove every character of the stop set. -/
def specNormalize (s : String) : String :=
  ⟨(s.data.map Char.toLower).filter (fun c => !isStopChar c)⟩

/-! ## Reconciliation (`match_files_and_keys`, lines 223-252) -/

/-- The status write-back lambda of source lines 245-248. -/
def applyEmailStatus (matched_k1_filename : Option String) (email_status : Option String) :
    Option String :=
  if matched_k1_filename.isSome && email_status.isNone then some "file_found"
  else email_status

/-- Documents whose key appears in no investor row (source line 238). -/
def unmatchedCount (docKeys investorKeys : List String) : Nat :=
  (docKeys.filter (fun k => !(investorKeys.contains k))).length

/-- The match-success rate of source line 240, as an exact rational. -/
def matchSuccessRate (docKeys investorKeys : List String) : ℚ :=
  1 - (unmatchedCount docKeys investorKeys : ℚ) / (docKeys.length : ℚ)

/-- Python `f\"{q:.2%}\"` for the nonnegative rates of this program:
percentage with two decimals, rounding half up at the third decimal. -/
def formatPercent2 (q : ℚ) : String :=
  let n : ℕ := (⌊q * 10000 + 1 / 2⌋ : ℤ).toNat
  toString (n / 100) ++ "." ++ (if n % 100 < 10 then "0" else "") ++ toString (n % 100) ++ "%"

/-- The `MATCH SUCCESS` figure printed by source line 240. -/
def matchSuccessReport (docKeys investorKeys : List String) : String :=
  formatPercent2 (matchSuccessRate docKeys investorKeys)

/-- An investor row, reduced to the fields the join reads. -/
structure InvestorRow where
  row_id : String
  k1_matching_key : String
  deriving DecidableEq

/-- A document row of `k1_matching_key_df`, reduced to path and key. -/
structure DocKeyRow where
  path : String
  k1_matching_key : String
  deriving DecidableEq

/-- The rows a left merge produces for one investor row: one per matching
document, or a single null-matched row. -/
def matchRowsFor (docs : List DocKeyRow) (inv : InvestorRow) :
    List (InvestorRow × Option DocKeyRow) :=
  let hits := docs.filter (fun d => d.k1_matching_key == inv.k1_matching_key)
  if hits.isEmpty then [(inv, none)] else hits.map (fun d => (inv, some d))

/-- `pd.merge(investors_df, k1_matching_key_df, on="k1_matching_key",
how="left")` (source line 233): investor-preserving equality join. -/
def leftJoinByKey (investors : List InvestorRow) (docs : List DocKeyRow) :
    List (InvestorRow × Option DocKeyRow) :=
  investors.flatMap (matchRowsFor docs)

/-! ## Sending (`send_emails`, lines 254-419) -/

/-- One (email_address_N, email_type_N) pair after `str()`: a missing
pandas value reads as the string \"nan\". -/
structure EmailSlot where
  email_address : String
  email_type : String
  deriving DecidableEq

/-- The three recipient lists of the outbound message: to, cc, bcc. -/
abbrev RecipientLists := List String × List String × List String

/-- Source lines 333 and 350: in test mode every recipient address is the
sender; otherwise the stripped stored address. -/
def recipientAddress (test_mode : Bool) (sender address : String) : String :=
  if test_mode then sender else pyStrip address

/-- Source lines 326-344: one investor slot; skipped when the address reads
\"nan\", dispatched on the lower-cased type, defaulting to cc. -/
def addInvestorSlot (test_mode : Bool) (sender : String) (acc : RecipientLists)
    (slot : EmailSlot) : RecipientLists :=
  if slot.email_address != "nan" then
    let r := recipientAddress test_mode sender slot.email_address
    if pyLower slot.email_type == "to" then (acc.1 ++ [r], acc.2.1, acc.2.2)
    else if pyLower slot.email_type == "cc" then (acc.1, acc.2.1 ++ [r], acc.2.2)
    else if pyLower slot.email_type == "bcc" then (acc.1, acc.2.1, acc.2.2 ++ [r])
    else (acc.1, acc.2.1 ++ [r], acc.2.2)
  else acc

/-- Source lines 346-356: one internal recipient, cc or bcc only. -/
def addInternalSlot (test_mode : Bool) (sender : String) (acc : RecipientLists)
    (slot : EmailSlot) : RecipientLists :=
  let r := recipientAddress test_mode sender slot.email_address
  if pyLower slot.email_type == "cc" then (acc.1, acc.2.1 ++ [r], acc.2.2)
  else if pyLower slot.email_type == "bcc" then (acc.1, acc.2.1, acc.2.2 ++ [r])
  else acc

/-- Left fold of a slot-adding step over a slot list. -/
def addSlots (step : RecipientLists → EmailSlot → RecipientLists) :
    RecipientLists → List EmailSlot → RecipientLists
  | acc, [] => acc
  | acc, s :: rest => addSlots step (step acc s) rest

/-- The recipient lists built for one message: the investor's up-to-4
slots, then the internal recipients appended to every message. -/
def buildRecipients (test_mode : Bool) (sender : String)
    (slots internal_recipients : List EmailSlot) : RecipientLists :=
  addSlots (addInternalSlot test_mode sender)
    (addSlots (addInvestorSlot test_mode sender) ([], [], []) slots)
    internal_recipients

/-- All addresses of a message, across the three lists. -/
def allRecipients (t : RecipientLists) : List String := t.1 ++ t.2.1 ++ t.2.2

/-- Does every address of the message equal the sender? -/
def allSenderOnly (sender : String) (t : RecipientLists) : Bool :=
  (allRecipients t).all (fun a => a == sender)

/-- The send loop of source lines 298-300: `enumerate` from 0, breaking as
soon as `index >= email_limit`; returns the rows for which an outbound
request is issued. -/
def sendLoopAux {α : Type} (email_limit : Option Int) : Int → List α → List α
  | _, [] => []
  | index, row :: rest =>
    match email_limit with
    | some n => if index ≥ n then [] else row :: sendLoopAux email_limit (index + 1) rest
    | none => row :: sendLoopAux email_limit (index + 1) rest

/-- The rows actually sent, out of the eligible rows in order. -/
def sentRows {α : Type} (email_limit : Option Int) (rows : List α) : List α :=
  sendLoopAux email_limit 0 rows

/-! ## Concrete fixtures used by witnesses and counterexamples -/

/-- A well-formed single-page document: marker, both anchors, entity values
exactly three lines below each anchor. -/
def pagesGood : List (List String) :=
  [[k1Marker, hdrPartI, "l2", "l3", "ACME FOREST LLC", hdrPartII, "l6", "l7", "JOHN Q PUBLIC"]]

/-- A document whose only page has the issuing anchor as its final line, so
the fixed offset of 3 runs past the end of the line array. -/
def pagesNearEnd : List (List String) := [[k1Marker, hdrPartI]]

/-- Content map: every path resolves to the near-end document. -/
def contentNearEnd (_ : String) : List (List String) := [[k1Marker, hdrPartI]]

/-- Content map: every path resolves to a document with no marker page. -/
def contentNone (_ : String) : List (List String) := [["hello world"]]

/-- An unresolved record for the well-formed document. -/
def docA : K1Info :=
  { path := "Asset A/good.pdf", investment_name := "Asset A"
    issuing_entity := none, receiving_entity := none }

/-- An unresolved record for a marker-less document. -/
def docB : K1Info :=
  { path := "Asset A/bad.pdf", investment_name := "Asset A"
    issuing_entity := none, receiving_entity := none }

/-- An unresolved record for the near-end document. -/
def docShort : K1Info :=
  { path := "Asset A/short.pdf", investment_name := "Asset A"
    issuing_entity := none, receiving_entity := none }

/-- `docA` as the first extraction pass resolves it. -/
def docAresolved : K1Info :=
  { path := "Asset A/good.pdf", investment_name := "Asset A"
    issuing_entity := some "ACME FOREST LLC", receiving_entity := some "JOHN Q PUBLIC" }

/-- Content map pairing `docA` with the good document and every other path
with a marker-less document. -/
def contentC5 (p : String) : List (List String) :=
  if p == "Asset A/good.pdf" then pagesGood else [["no marker here"]]

/-- Content map pairing `docShort` with the near-end document and every
other path with the good document. -/
def contentC4 (p : String) : List (List String) :=
  if p == "Asset A/short.pdf" then [[k1Marker, hdrPartI]] else pagesGood

/-- A directory listing exercising the discovery filters. -/
def listing0 : List (String × List String) :=
  [("Asset A", ["good.pdf", "Managers Copy.pdf", "notes.txt"])]

/-- The record of `_create_matching_keys`' documented example. -/
def acmeRecord : K1Info :=
  { path := "ACME FUND/doc.pdf", investment_name := "ACME FUND"
    issuing_entity := some "ACME FOREST LLC", receiving_entity := some "JOHN Q. PUBLIC" }

/-- Fifty distinct document keys. -/
def docKeys50 : List String := (List.range 50).map Nat.repr

/-- Investor keys matching exactly 43 of `docKeys50`. -/
def invKeys43 : List String := (List.range 43).map Nat.repr

/-- A line array whose naive receiving-entity line (index 0 + 3) matches the
whole word `street` and no earlier rule. -/
def linesC3 : List String := [hdrPartII, "filler", "JOHN Q PUBLIC", "123 ELM STREET"]

/-- A marker page containing neither section anchor. -/
def pageNoHdr : List String := [k1Marker, "no headers here"]

/-- A document whose marker page contains neither section anchor. -/
def pagesNoHdr : List (List String) := [pageNoHdr]

/-- An investor row whose key collides with two documents. -/
def invW : InvestorRow := { row_id := "row1", k1_matching_key := "dupkey" }

/-- First document of the colliding pair. -/
def docW1 : DocKeyRow := { path := "Asset A/one.pdf", k1_matching_key := "dupkey" }

/-- Second document of the colliding pair. -/
def docW2 : DocKeyRow := { path := "Asset A/two.pdf", k1_matching_key := "dupkey" }

/-! ## Helper lemmas -/

/-- Deleting via the translation table equals filtering out the stop characters. -/
theorem stop_characters_translate_eq_filter (cs : List Char) :
    stop_characters_translate cs = cs.filter (fun c => !isStopChar c) := by
  induction cs with
  | nil => rfl
  | cons c cs ih =>
    simp only [stop_characters_translate, List.filter_cons]
    by_cases h : isStopChar c
    · simp [h, ih]
    · simp [h, ih]

/-- The send loop with a limit processes `max 0 (n - i)` rows, capped by the list. -/
theorem sendLoopAux_some_length {α : Type} (n : Int) (rows : List α) :
    ∀ i : Int, (sendLoopAux (some n) i rows).length = min (n - i).toNat rows.length := by
  induction rows with
  | nil => intro i; simp [sendLoopAux]
  | cons r rest ih =>
    intro i
    simp only [sendLoopAux]
    by_cases h : i ≥ n
    · rw [if_pos h]
      simp only [List.length_nil, List.length_cons]
      omega
    · rw [if_neg h]
      simp only [List.length_cons, ih (i + 1)]
      omega

/-- The send loop without a limit processes every row. -/
theorem sendLoopAux_none {α : Type} (rows : List α) :
    ∀ i : Int, sendLoopAux (none : Option Int) i rows = rows := by
  induction rows with
  | nil => intro i; rfl
  | cons r rest ih => intro i; simp [sendLoopAux, ih]

/-! ## Claim theorems -/

/-- C1: the matching key produced by `_create_matching_keys` equals the
concatenation investment_name # issuing_entity # receiving_entity,
lower-cased, with space, period, comma, straight and curly apostrophe
removed; on the ACME example the key is
`acmefund#acmeforestllc#johnqpublic`. -/
theorem c1_matching_key (k : K1Info) (ie re : String)
    (hie : k.issuing_entity = some ie) (hre : k.receiving_entity = some re) :
    create_matching_key k =
      specNormalize (k.investment_name ++ "#" ++ ie ++ "#" ++ re) ∧
    (k.investment_name = "ACME FUND" → ie = "ACME FOREST LLC" → re = "JOHN Q. PUBLIC" →
      create_matching_key k = "acmefund#acmeforestllc#johnqpublic") := by
  constructor
  · simp only [create_matching_key, specNormalize, pyStrOfOpt, hie, hre, pyLowerL]
    exact congrArg String.mk (stop_characters_translate_eq_filter _)
  · intro h1 h2 h3
    subst h2
    subst h3
    simp only [create_matching_key, pyStrOfOpt, hie, hre, h1]
    decide

/-- Witness for C1 at the documented ACME example record. -/
theorem c1_matching_key_witness :
    create_matching_key acmeRecord = "acmefund#acmeforestllc#johnqpublic" :=
  (c1_matching_key acmeRecord "ACME FOREST LLC" "JOHN Q. PUBLIC" rfl rfl).2 rfl rfl rfl

/-- C2: the write-back sets email_status to "file_found" exactly when the
row has a matched filename and a null prior status; in every other case
the prior status is returned unchanged, and in particular a status of
"sent" is kept whatever the matched filename is. -/
theorem c2_status_writeback (matched email_status : Option String) :
    (matched.isSome = true → email_status = none →
      applyEmailStatus matched email_status = some "file_found") ∧
    (¬(matched.isSome = true ∧ email_status = none) →
      applyEmailStatus matched email_status = email_status) ∧
    applyEmailStatus matched (some "sent") = some "sent" := by
  refine ⟨?_, ?_, ?_⟩
  · intro h1 h2
    simp [applyEmailStatus, h1, h2]
  · intro h
    cases matched with
    | none => simp [applyEmailStatus]
    | some m =>
      cases email_status with
      | none => exact absurd ⟨rfl, rfl⟩ h
      | some s => simp [applyEmailStatus]
  · cases matched <;> simp [applyEmailStatus]

/-- Witness for C2: a matched row with null status becomes file_found and a
matched row with status sent keeps it. -/
theorem c2_status_writeback_witness :
    applyEmailStatus (some "Asset A/good.pdf") none = some "file_found" ∧
    applyEmailStatus (some "Asset A/good.pdf") (some "sent") = some "sent" :=
  ⟨(c2_status_writeback (some "Asset A/good.pdf") none).1 rfl rfl,
   (c2_status_writeback (some "Asset A/good.pdf") (some "sent")).2.2⟩

/-- C6: the reported match rate is 1 minus unmatched over total, and with 7
unmatched among 50 documents the report reads 86.00%. -/
theorem c6_match_rate (docKeys investorKeys : List String)
    (htotal : docKeys.length = 50)
    (hunmatched : unmatchedCount docKeys investorKeys = 7) :
    matchSuccessRate docKeys investorKeys = 1 - (7 : ℚ) / 50 ∧
    matchSuccessReport docKeys investorKeys = "86.00%" := by
  have hrate : matchSuccessRate docKeys investorKeys = 1 - (7 : ℚ) / 50 := by
    simp only [matchSuccessRate, htotal, hunmatched]
    norm_num
  refine ⟨hrate, ?_⟩
  have hfloor : (⌊(1 - (7 : ℚ) / 50) * 10000 + 1 / 2⌋ : ℤ) = 8600 := by norm_num
  rw [matchSuccessReport, hrate]
  simp only [formatPercent2, hfloor]
  decide

/-- Witness for C6: fifty concrete keys of which exactly seven are unmatched. -/
theorem c6_match_rate_witness :
    docKeys50.length = 50 ∧ unmatchedCount docKeys50 invKeys43 = 7 ∧
    matchSuccessReport docKeys50 invKeys43 = "86.00%" :=
  ⟨by decide, by decide, (c6_match_rate docKeys50 invKeys43 (by decide) (by decide)).2⟩

/-- C8: the left join emits one output row per matching (investor, document)
pair, so every document whose key equals an investor key appears in the
merged output, duplicates included. -/
theorem c8_duplicate_join_rows (investors : List InvestorRow) (docs : List DocKeyRow)
    (inv : InvestorRow) (d : DocKeyRow)
    (hinv : inv ∈ investors) (hd : d ∈ docs)
    (hkey : d.k1_matching_key = inv.k1_matching_key) :
    (inv, some d) ∈ leftJoinByKey investors docs := by
  rw [leftJoinByKey, List.mem_flatMap]
  refine ⟨inv, hinv, ?_⟩
  have hdhits : d ∈ docs.filter (fun x => x.k1_matching_key == inv.k1_matching_key) :=
    List.mem_filter.mpr ⟨hd, by simp [hkey]⟩
  cases hfe : docs.filter (fun x => x.k1_matching_key == inv.k1_matching_key) with
  | nil =>
    rw [hfe] at hdhits
    simp at hdhits
  | cons a as =>
    rw [hfe] at hdhits
    simp only [matchRowsFor, hfe, List.isEmpty_cons, if_false, Bool.false_eq_true]
    exact List.mem_map.mpr ⟨d, hdhits, rfl⟩

/-- Witness for C8: one investor row colliding with two documents yields
both matched rows in the join output. -/
theorem c8_duplicate_join_rows_witness :
    (invW, some docW1) ∈ leftJoinByKey [invW] [docW1, docW2] ∧
    (invW, some docW2) ∈ leftJoinByKey [invW] [docW1, docW2] :=
  ⟨c8_duplicate_join_rows [invW] [docW1, docW2] invW docW1 (by decide) (by decide) rfl,
   c8_duplicate_join_rows [invW] [docW1, docW2] invW docW2 (by decide) (by decide) rfl⟩

/-- C10: with email_limit n the send loop issues requests for exactly
min(n, number of eligible rows) rows, breaking at index n; with no limit
every eligible row is processed. -/
theorem c10_email_limit {α : Type} (n : Int) (rows : List α) :
    (sentRows (some n) rows).length = min n.toNat rows.length ∧
    sentRows (none : Option Int) rows = rows := by
  constructor
  · have h := sendLoopAux_some_length n rows 0
    simpa [sentRows] using h
  · exact sendLoopAux_none rows 0

/-- Lines containing neither section anchor leave the entity accumulator
untouched and raise nothing. -/
theorem processLinesAux_no_header (lines : List String) (ls : List String) :
    ∀ (ln : Nat) (acc : Ent),
      (∀ l ∈ ls, containsSub hdrPartI l = false ∧ containsSub hdrPartII l = false) →
      processLinesAux lines ln ls acc = .ok acc := by
  induction ls with
  | nil => intro ln acc _; rfl
  | cons l ls ih =>
    intro ln acc h
    have hl := h l (List.mem_cons_self l ls)
    have hrest : ∀ x ∈ ls, containsSub hdrPartI x = false ∧ containsSub hdrPartII x = false :=
      fun x hx => h x (List.mem_cons_of_mem l hx)
    simp only [processLinesAux, processLine, hl.1, hl.2, Bool.false_eq_true, if_false]
    exact ih (ln + 1) acc hrest

/-- Preservation of the all-sender invariant by one investor slot in test mode. -/
theorem addInvestorSlot_sender (sender : String) (acc : RecipientLists) (s : EmailSlot)
    (h : allSenderOnly sender acc = true) :
    allSenderOnly sender (addInvestorSlot true sender acc s) = true := by
  obtain ⟨t, c, b⟩ := acc
  simp only [allSenderOnly, allRecipients, List.all_append, Bool.and_eq_true] at h
  simp only [addInvestorSlot, recipientAddress, if_true]
  split_ifs <;>
    simp_all [allSenderOnly, allRecipients, List.all_append] <;> tauto

/-- Preservation of the all-sender invariant by one internal recipient in test mode. -/
theorem addInternalSlot_sender (sender : String) (acc : RecipientLists) (s : EmailSlot)
    (h : allSenderOnly sender acc = true) :
    allSenderOnly sender (addInternalSlot true sender acc s) = true := by
  obtain ⟨t, c, b⟩ := acc
  simp only [allSenderOnly, allRecipients, List.all_append, Bool.and_eq_true] at h
  simp only [addInternalSlot, recipientAddress, if_true]
  split_ifs <;>
    simp_all [allSenderOnly, allRecipients, List.all_append] <;> tauto

/-- Folding a sender-preserving step over any slot list preserves the invariant. -/
theorem addSlots_sender (sender : String)
    (step : RecipientLists → EmailSlot → RecipientLists)
    (hstep : ∀ acc s, allSenderOnly sender acc = true →
      allSenderOnly sender (step acc s) = true)
    (slots : List EmailSlot) :
    ∀ acc, allSenderOnly sender acc = true →
      allSenderOnly sender (addSlots step acc slots) = true := by
  induction slots with
  | nil => intro acc h; exact h
  | cons s rest ih =>
    intro acc h
    simp only [addSlots]
    exact ih (step acc s) (hstep acc s h)

/-- C3: with the rules tested in order against the lower-cased stripped
line, a line matching the whole word street and none of the five
earlier-listed rules makes the first matching rule the street rule, whose
instruction selects the line immediately above the naive offset. -/
theorem c3_street_shift (lines : List String) (anchor : Nat) (raw : String)
    (hget : lines.get? (anchor + 3) = some raw)
    (h0 : ruleHit ["1021", "38th", "street", "investment"] (pyStrip raw) = false)
    (h1 : ruleHit ["1021", "38th", "street"] (pyStrip raw) = false)
    (h2 : ruleHit ["38th", "street"] (pyStrip raw) = false)
    (h3 : ruleHit ["benedikt", "road"] (pyStrip raw) = false)
    (h4 : ruleHit ["st"] (pyStrip raw) = false)
    (h5 : ruleHit ["street"] (pyStrip raw) = true) :
    moveOneLineUp (pyStrip raw) = true ∧
    selectReceiving lines (anchor + 3) = .ok (pyStrip (lines.getD (anchor + 2) "")) := by
  have hmove : moveOneLineUp (pyStrip raw) = true := by
    simp only [moveOneLineUp, receiving_entity_regexp, List.find?, h0, h1, h2, h3, h4, h5]
  refine ⟨hmove, ?_⟩
  have hlen : anchor + 3 < lines.length := (List.get?_eq_some.mp hget).1
  cases hc : lines.get? (anchor + 2) with
  | none =>
    have := List.get?_eq_none.mp hc
    omega
  | some above =>
    have harith : anchor + 3 - 1 = anchor + 2 := by omega
    have hgetD : lines.getD (anchor + 2) "" = above := by
      simp only [List.getD]
      rw [hc]
      rfl
    simp only [selectReceiving, hget, hmove, if_true, harith, hc, hgetD]

/-- Witness for C3: the street line at offset 3 makes the resolver select
the line above it. -/
theorem c3_street_shift_witness :
    moveOneLineUp (pyStrip "123 ELM STREET") = true ∧
    selectReceiving linesC3 (0 + 3) = .ok (pyStrip (linesC3.getD (0 + 2) "")) :=
  c3_street_shift linesC3 0 "123 ELM STREET" rfl (by decide) (by decide) (by decide)
    (by decide) (by decide) (by decide)

/-- C4 counterexample: a batch whose first document has its anchor within 3
lines of the end of the page aborts with an IndexError; the remaining
document is never processed, contradicting the claimed isolation. -/
theorem c4_exception_escapes :
    extract_entities contentC4 [docShort, docA] = .error "IndexError" := rfl

/-- C4 amended: a matched page with no section anchor leaves the entity
fields exactly as they were (null stays null, no partial value, no
exception), but an anchor within 3 lines of the end of the line array
raises an IndexError that escapes and aborts the remaining documents. -/
theorem c4_amended :
    (∀ (pages : List (List String)) (acc : Ent) (p : List String),
        pages.find? pageHasMarker = some p →
        (∀ l ∈ p, containsSub hdrPartI l = false ∧ containsSub hdrPartII l = false) →
        extractEnt pages acc = .ok acc) ∧
    (∀ (k : K1Info) (rest : List K1Info),
        k.issuing_entity = none → k.receiving_entity = none →
        extract_entities contentNearEnd (k :: rest) = .error "IndexError") := by
  constructor
  · intro pages acc p hfind hnohdr
    simp only [extractEnt, hfind]
    exact processLinesAux_no_header p p 0 acc hnohdr
  · intro k rest h1 h2
    simp only [extract_entities, extractPassAux]
    rw [if_pos (And.intro h1 h2), h1, h2]
    have hee : extractEnt (contentNearEnd k.path) ((none : Option String), (none : Option String)) =
        .error "IndexError" := rfl
    rw [hee]

/-- Witness for C4 amended: a concrete anchor-free page keeps null fields,
and a concrete near-end document aborts the pass. -/
theorem c4_amended_witness :
    extractEnt pagesNoHdr ((none, none) : Ent) = .ok (none, none) ∧
    extract_entities contentNearEnd [docShort] = .error "IndexError" :=
  ⟨c4_amended.1 pagesNoHdr (none, none) pageNoHdr rfl (by decide),
   c4_amended.2 docShort [] rfl rfl⟩

/-- C7: evaluating the code at the failing input. A run whose first
processed document has no page containing the form marker leaves the
entity pair untouched at page-scan level, but the per-document print of
source line 197 reads the never-bound locals and the call raises
UnboundLocalError instead of finishing silently. -/
theorem c7_unbound_local_eval :
    extract_entities contentNone [docB] = .error "UnboundLocalError" ∧
    extractEnt (contentNone docB.path) ((none, none) : Ent) = .ok (none, none) :=
  ⟨rfl, rfl⟩

/-- C9: with test_mode on, every address in the to, cc and bcc lists of a
built message, including the internal recipients, equals the sender. -/
theorem c9_test_mode_recipients (sender : String) (slots internal_recipients : List EmailSlot) :
    allSenderOnly sender (buildRecipients true sender slots internal_recipients) = true := by
  rw [buildRecipients]
  apply addSlots_sender sender _ (fun acc s h => addInternalSlot_sender sender acc s h)
  apply addSlots_sender sender _ (fun acc s h => addInvestorSlot_sender sender acc s h)
  rfl

/-- A record with a non-null entity field passes through the extraction
pass unchanged: the condition of source line 148 skips it. -/
theorem extractPassAux_skip (content : String → List (List String)) (boundI boundR : Bool)
    (k : K1Info) (ks : List K1Info)
    (h : ¬(k.issuing_entity = none ∧ k.receiving_entity = none)) :
    extractPassAux content (k :: ks) boundI boundR =
      (extractPassAux content ks boundI boundR).map (fun rest => k :: rest) := by
  simp only [extractPassAux]
  rw [if_neg h]
  cases extractPassAux content ks boundI boundR <;> rfl

/-- Re-running the extraction pass on the result of a completed pass, when
it completes, returns the same array: resolved records are skipped, and a
record left fully null re-resolves to the same values. -/
theorem extractPassAux_fix (content : String → List (List String)) (arr : List K1Info) :
    ∀ (bI bR : Bool) (arr' : List K1Info),
      extractPassAux content arr bI bR = .ok arr' →
      ∀ (cI cR : Bool) (arr'' : List K1Info),
        extractPassAux content arr' cI cR = .ok arr'' → arr'' = arr' := by
  induction arr with
  | nil =>
    intro bI bR arr' h1 cI cR arr'' h2
    simp only [extractPassAux] at h1
    injection h1 with h1
    subst h1
    simp only [extractPassAux] at h2
    injection h2 with h2
    exact h2.symm
  | cons k ks ih =>
    intro bI bR arr' h1 cI cR arr'' h2
    obtain ⟨kp, kinv, kie, kre⟩ := k
    simp only [extractPassAux] at h1
    by_cases hk : kie = none ∧ kre = none
    · obtain ⟨hki, hkr⟩ := hk
      subst hki
      subst hkr
      rw [if_pos (And.intro rfl rfl)] at h1
      cases hext : extractEnt (content kp) ((none : Option String), (none : Option String)) with
      | error e =>
        rw [hext] at h1
        simp at h1
      | ok ir =>
        obtain ⟨i, r⟩ := ir
        rw [hext] at h1
        dsimp only at h1
        by_cases hb : ((bI || i.isSome) && (bR || r.isSome)) = true
        · rw [if_pos hb] at h1
          cases hrec : extractPassAux content ks (bI || i.isSome) (bR || r.isSome) with
          | error e =>
            rw [hrec] at h1
            simp at h1
          | ok rest =>
            rw [hrec] at h1
            dsimp only at h1
            injection h1 with h1
            subst h1
            simp only [extractPassAux] at h2
            by_cases hir : i = none ∧ r = none
            · obtain ⟨hi0, hr0⟩ := hir
              subst hi0
              subst hr0
              rw [if_pos (And.intro rfl rfl)] at h2
              rw [hext] at h2
              dsimp only at h2
              simp only [Option.isSome_none, Bool.or_false] at h2
              by_cases hb2 : (cI && cR) = true
              · rw [if_pos hb2] at h2
                cases hrec2 : extractPassAux content rest cI cR with
                | error e =>
                  rw [hrec2] at h2
                  simp at h2
                | ok rest2 =>
                  rw [hrec2] at h2
                  dsimp only at h2
                  injection h2 with h2
                  have hr2 : rest2 = rest := ih _ _ rest hrec cI cR rest2 hrec2
                  rw [hr2] at h2
                  exact h2.symm
              · rw [if_neg hb2] at h2
                simp at h2
            · rw [if_neg hir] at h2
              cases hrec2 : extractPassAux content rest cI cR with
              | error e =>
                rw [hrec2] at h2
                simp at h2
              | ok rest2 =>
                rw [hrec2] at h2
                dsimp only at h2
                injection h2 with h2
                have hr2 : rest2 = rest := ih _ _ rest hrec cI cR rest2 hrec2
                rw [hr2] at h2
                exact h2.symm
        · rw [if_neg hb] at h1
          simp at h1
    · rw [if_neg hk] at h1
      cases hrec : extractPassAux content ks bI bR with
      | error e =>
        rw [hrec] at h1
        simp at h1
      | ok rest =>
        rw [hrec] at h1
        dsimp only at h1
        injection h1 with h1
        subst h1
        simp only [extractPassAux] at h2
        rw [if_neg hk] at h2
        cases hrec2 : extractPassAux content rest cI cR with
        | error e =>
          rw [hrec2] at h2
          simp at h2
        | ok rest2 =>
          rw [hrec2] at h2
          dsimp only at h2
          injection h2 with h2
          have hr2 : rest2 = rest := ih _ _ rest hrec cI cR rest2 hrec2
          rw [hr2] at h2
          exact h2.symm

/-- Discovery never appends a path already present: on a second scan with
the same listing, every candidate either fails the name filters or its
path is found in the extended array, so nothing new is appended. -/
theorem gather_files_idem (arr : List K1Info) (listing : List (String × List String)) :
    gather_files (gather_files arr listing) listing = gather_files arr listing := by
  have hcond : ∀ af ∈ listing, ∀ file ∈ af.2,
      gatherCond (gather_files arr listing) af.1 file = false := by
    intro af haf file hfile
    rw [gatherCond]
    cases hB : (pyEndsWith ".pdf" (pyLower file) && !(containsSub "managers" (pyLower file))) with
    | false =>
      rfl
    | true =>
      have hany : (gather_files arr listing).any
          (fun k1 => k1.path == af.1 ++ "/" ++ file) = true := by
        cases hc : arr.any (fun k1 => k1.path == af.1 ++ "/" ++ file) with
        | true =>
          rw [gather_files, List.any_append, hc, Bool.true_or]
        | false =>
          have hcount : gatherCond arr af.1 file = true := by
            rw [gatherCond, hB, hc]
            rfl
          have hmem : k1EntryOf af.1 file ∈ gatherNew arr listing :=
            List.mem_flatMap.mpr ⟨af, haf,
              List.mem_map.mpr ⟨file, List.mem_filter.mpr ⟨hfile, hcount⟩, rfl⟩⟩
          apply List.any_eq_true.mpr
          refine ⟨k1EntryOf af.1 file, ?_, ?_⟩
          · rw [gather_files]
            exact List.mem_append_right arr hmem
          · simp [k1EntryOf]
      rw [hany]
      rfl
  have hfilter : ∀ af ∈ listing,
      af.2.filter (gatherCond (gather_files arr listing) af.1) = [] := by
    intro af haf
    rw [List.filter_eq_nil_iff]
    intro file hfile
    simp [hcond af haf file hfile]
  have hnil : gatherNew (gather_files arr listing) listing = [] := by
    rw [gatherNew]
    have haux : ∀ (L : List (String × List String)),
        (∀ af ∈ L, af.2.filter (gatherCond (gather_files arr listing) af.1) = []) →
        L.flatMap (fun af =>
          (af.2.filter (gatherCond (gather_files arr listing) af.1)).map (k1EntryOf af.1)) = [] := by
      intro L
      induction L with
      | nil => intro _; rfl
      | cons af rest ihL =>
        intro h
        simp only [List.flatMap_cons, h af (List.mem_cons_self af rest), List.map_nil,
          List.nil_append]
        exact ihL (fun x hx => h x (List.mem_cons_of_mem af hx))
    exact haux listing hfilter
  show gather_files arr listing ++ gatherNew (gather_files arr listing) listing =
    gather_files arr listing
  rw [hnil, List.append_nil]

/-- C5 counterexample: with a cache holding one resolved and one still-null
document (the real outcome of a first run whose second document has no
marker page), the second extraction pass does not return the identical
collection: the still-null document re-resolves to nothing, the locals of
the per-document print stay unbound, and the pass raises
UnboundLocalError. -/
theorem c5_second_pass_raises :
    extract_entities contentC5 [docA, docB] = .ok [docAresolved, docB] ∧
    extract_entities contentC5 [docAresolved, docB] = .error "UnboundLocalError" :=
  ⟨rfl, rfl⟩

/-- C5 amended: a second discovery pass with the same listing appends
nothing (identity is the path); a record holding non-null entity fields is
skipped, never re-extracted; and whenever the second extraction pass
completes without raising, it returns the identical collection. -/
theorem c5_amended_idempotence :
    (∀ (arr : List K1Info) (listing : List (String × List String)),
        gather_files (gather_files arr listing) listing = gather_files arr listing) ∧
    (∀ (content : String → List (List String)) (boundI boundR : Bool)
        (k : K1Info) (ks : List K1Info),
        ¬(k.issuing_entity = none ∧ k.receiving_entity = none) →
        extractPassAux content (k :: ks) boundI boundR =
          (extractPassAux content ks boundI boundR).map (fun rest => k :: rest)) ∧
    (∀ (content : String → List (List String)) (arr arr' arr'' : List K1Info),
        extract_entities content arr = .ok arr' →
        extract_entities content arr' = .ok arr'' → arr'' = arr') :=
  ⟨gather_files_idem, extractPassAux_skip,
   fun content arr arr' arr'' h1 h2 =>
     extractPassAux_fix content arr false false arr' h1 false false arr'' h2⟩

/-- Witness for C5 amended at concrete inputs: a re-scanned listing, a
resolved record skipped by the pass, and a completed second pass returning
the same singleton collection. -/
theorem c5_amended_witness :
    gather_files (gather_files [] listing0) listing0 = gather_files [] listing0 ∧
    extractPassAux contentC5 [docAresolved] false false =
      (extractPassAux contentC5 [] false false).map (fun rest => docAresolved :: rest) ∧
    ([docAresolved] : List K1Info) = [docAresolved] :=
  ⟨c5_amended_idempotence.1 [] listing0,
   c5_amended_idempotence.2.1 contentC5 false false docAresolved [] (by decide),
   c5_amended_idempotence.2.2 contentC5 [docA] [docAresolved] [docAresolved] rfl rfl⟩
